import Mathlib

/-
  Shallow embedding of the baykov477/spongecake example scripts
  (src/examples/concurrency_example.py and src/examples/linkedin_example.py)
  together with the parts of their environment the scripts observe:
  Python datetime.date arithmetic (proleptic Gregorian calendar) and the
  numeric parsing performed by the builtin float on strings.
-/

namespace Spongecake

/-! ## Calendar model (Python datetime.date, proleptic Gregorian)

Python dates are proleptic Gregorian; date(1, 1, 1) is a Monday and
date.weekday() numbers Monday as 0.  We model a date as a year/month/day
triple, single-day stepping, and the rata-die ordinal used to compute
weekdays (matching date.toordinal, where toordinal of 1-1-1 is 1). -/

structure Date where
  year : Nat
  month : Nat
  day : Nat
  deriving DecidableEq, Repr

def isLeap (y : Nat) : Bool :=
  (y % 4 == 0 && y % 100 != 0) || (y % 400 == 0)

def daysInMonth (y m : Nat) : Nat :=
  if m = 2 then (if isLeap y then 29 else 28)
  else if m = 4 ∨ m = 6 ∨ m = 9 ∨ m = 11 then 30
  else 31

def nextDay : Date → Date
  | ⟨y, m, d⟩ =>
      if d < daysInMonth y m then ⟨y, m, d + 1⟩
      else if m < 12 then ⟨y, m + 1, 1⟩
      else ⟨y + 1, 1, 1⟩

def addDays (d : Date) : Nat → Date
  | 0 => d
  | k + 1 => nextDay (addDays d k)

def daysBeforeMonth (y m : Nat) : Nat :=
  match m with
  | 0 => 0
  | mm + 1 => if mm = 0 then 0 else daysBeforeMonth y mm + daysInMonth y mm

def daysBeforeYear (y : Nat) : Nat :=
  365 * (y - 1) + (y - 1) / 4 + (y - 1) / 400 - (y - 1) / 100

/-- Model of Python date.toordinal: day count with toordinal (1,1,1) = 1. -/
def toOrdinal : Date → Nat
  | ⟨y, m, d⟩ => daysBeforeYear y + daysBeforeMonth y m + d

/-- Model of Python date.weekday: Monday = 0 ... Sunday = 6. -/
def date_weekday (d : Date) : Nat :=
  (toOrdinal d - 1) % 7

/-! ## get_nth_weekend_dates (concurrency_example.py, lines 20-40) -/

/-- Embedding of the source line
offset_to_friday = (4 - first_day.weekday()) % 7,
using Int emod, which agrees with Python % for a positive modulus. -/
def offset_to_friday (year month : Nat) : Nat :=
  (((4 : Int) - (date_weekday ⟨year, month, 1⟩ : Int)) % 7).toNat

/-- The date the source computes as
first_day + timedelta(days=offset_to_friday + 7*(n-1)). -/
def nth_friday (year month n : Nat) : Date :=
  addDays ⟨year, month, 1⟩ (offset_to_friday year month + 7 * (n - 1))

/-- The date the source computes as nth_friday + timedelta(days=2). -/
def nth_sunday (year month n : Nat) : Date :=
  addDays (nth_friday year month n) 2

/-- Embedding of get_nth_weekend_dates: returns the day numbers of the
computed n-th Friday and Sunday, or none (Python: None, None) when either
computed date carries a month number different from the requested month. -/
def get_nth_weekend_dates (year month n : Nat) : Option (Nat × Nat) :=
  if (nth_friday year month n).month ≠ month ∨ (nth_sunday year month n).month ≠ month
  then none
  else some ((nth_friday year month n).day, (nth_sunday year month n).day)

/-! ## Numeric string parsing (Python builtin float applied to a str)

Models float(result) as used at concurrency_example.py line 132: strip
surrounding whitespace, optional sign, decimal digits with an optional
fractional part.  Exponent notation, infinities, NaN and digit-group
underscores are accepted by Python but are not modelled; no claim depends
on them.  Values are represented exactly as rationals: every string the
claims evaluate denotes a small integer, where IEEE rounding is exact. -/

def takeDigits : List Char → List Nat × List Char
  | [] => ([], [])
  | c :: rest =>
      if c.isDigit then
        match takeDigits rest with
        | (ds, r) => ((c.toNat - 48) :: ds, r)
      else ([], c :: rest)

def digitsToNat (ds : List Nat) : Nat :=
  ds.foldl (fun a d => 10 * a + d) 0

def stripWS (l : List Char) : List Char :=
  ((l.dropWhile Char.isWhitespace).reverse.dropWhile Char.isWhitespace).reverse

def pySigned (neg : Bool) (q : ℚ) : ℚ :=
  if neg then -q else q

def pyFloatNum (neg : Bool) (cs : List Char) : Option ℚ :=
  let ip := (takeDigits cs).1
  let cs2 := (takeDigits cs).2
  if cs2 = [] then
    if ip = [] then none else some (pySigned neg (digitsToNat ip : ℚ))
  else if cs2.head? = some '.' then
    let fp := (takeDigits cs2.tail).1
    let cs3 := (takeDigits cs2.tail).2
    if cs3 = [] then
      if ip = [] ∧ fp = [] then none
      else some (pySigned neg
        ((digitsToNat ip : ℚ) + (digitsToNat fp : ℚ) / (10 ^ fp.length : ℚ)))
    else none
  else none

def pyFloatChars (cs : List Char) : Option ℚ :=
  let t := stripWS cs
  if t.head? = some '+' then pyFloatNum false t.tail
  else if t.head? = some '-' then pyFloatNum true t.tail
  else pyFloatNum false t

def pyFloat (s : String) : Option ℚ :=
  pyFloatChars s.data

/-! ## SDK surface consumed by the scripts (spongecake Desktop, AgentStatus)

The examples import Desktop and AgentStatus from the spongecake package;
only the surface the scripts observe is modelled: the constructor port
fields, start/stop (counted by the worker traces below), and the action
call returning a status plus data.  The recognized statuses are the ones
the spec lists in its Action State Machine. -/

inductive AgentStatus
  | COMPLETE
  | ERROR
  | NEEDS_INPUT
  | NEEDS_SAFETY_CHECK
  deriving DecidableEq, Repr

/-- Python f-string rendering of an AgentStatus enum member. -/
def statusStr : AgentStatus → String
  | .COMPLETE => "AgentStatus.COMPLETE"
  | .ERROR => "AgentStatus.ERROR"
  | .NEEDS_INPUT => "AgentStatus.NEEDS_INPUT"
  | .NEEDS_SAFETY_CHECK => "AgentStatus.NEEDS_SAFETY_CHECK"

structure Desktop where
  name : String
  vnc_port : Nat
  api_port : Nat
  marionette_port : Nat
  socat_port : Nat
  deriving DecidableEq, Repr

/-- The Desktop built at concurrency_example.py lines 49-55: every port is
its default base plus weekend_number - 1. -/
def flightDesktop (weekend_number : Nat) : Desktop :=
  { name := "spongecake_weekend_flight_" ++ toString weekend_number
    vnc_port := 5900 + weekend_number - 1
    api_port := 8000 + weekend_number - 1
    marionette_port := 3838 + weekend_number - 1
    socat_port := 2828 + weekend_number - 1 }

def portList (d : Desktop) : List Nat :=
  [d.vnc_port, d.api_port, d.marionette_port, d.socat_port]

/-! ## Worker: check_flight_price (concurrency_example.py, lines 43-103)

One unit of work.  The environment events the worker cannot control are a
parameter: whether desktop.start raises, and what desktop.action does
(return a status with payload, or raise).  The trace records how many
times the Session was started and stopped, and the value the worker
reports: Except.error models an exception escaping the function (to be
caught by the future machinery in main), Except.ok the Python return
value, with none for the early return on invalid weekend dates. -/

inductive ActionOutcome
  | returns (status : AgentStatus) (output_text : String) (error_message : Option String)
  | raisesExc (msg : String)
  deriving DecidableEq, Repr

inductive StartResult
  | ok (act : ActionOutcome)
  | raisesExc (msg : String)
  deriving DecidableEq, Repr

deriving instance DecidableEq for Except

structure WorkerRun where
  startCount : Nat
  stopCount : Nat
  outcome : Except String (Option String)
  deriving DecidableEq, Repr

/-- The try block of lines 66-100: always returns a string, converting an
exception from the action into the EXCEPTION-prefixed result. -/
def actionBranch : ActionOutcome → String
  | .returns status out err =>
      if status = AgentStatus.COMPLETE then out
      else if status = AgentStatus.ERROR then "ERROR: " ++ err.getD "Unknown error"
      else "UNKNOWN: Status " ++ statusStr status
  | .raisesExc msg => "EXCEPTION: " ++ msg

/-- Embedding of check_flight_price.  The origin and destination strings
only appear inside the prompt text and do not affect control flow, so they
are omitted.  desktop.start() is outside the try statement: if it raises,
nothing was started and the exception escapes with no stop call.  After a
successful start every path stops exactly once: the early return at lines
60-63 stops before returning None, and the finally clause at lines 101-103
stops on the normal, error, unknown and exception paths. -/
def check_flight_price (month weekend_number : Nat) : StartResult → WorkerRun
  | .raisesExc msg => ⟨0, 0, .error msg⟩
  | .ok act =>
      match get_nth_weekend_dates 2025 month weekend_number with
      | none => ⟨1, 1, .ok none⟩
      | some _ => ⟨1, 1, .ok (some (actionBranch act))⟩

/-! ## Scheduler and aggregator: main (concurrency_example.py, lines 105-147)

main submits one future per weekend in [1, 2, 3, 4, 5] and consumes them
in completion order.  For each future it either stores the worker result
(when not None) and folds it into the running cheapest value, or, when
the future raised, stores an ERROR entry.  cheapest none models the
initial float inf sentinel: any parsed price compares below it. -/

structure AggState where
  results : List (Nat × String)
  cheapest : Option ℚ
  deriving DecidableEq, Repr

/-- Embedding of lines 132-134: if price < cheapest_weekend, replace it.
The none seed is float inf, below which every price falls. -/
def updateCheapest (c : Option ℚ) (price : ℚ) : Option ℚ :=
  match c with
  | none => some price
  | some q => if price < q then some price else some q

/-- Embedding of the loop body at lines 125-141 for one completed future. -/
def processOutcome (st : AggState) (weekend_number : Nat)
    (fr : Except String (Option String)) : AggState :=
  match fr with
  | .error msg => ⟨st.results ++ [(weekend_number, "ERROR: " ++ msg)], st.cheapest⟩
  | .ok none => st
  | .ok (some r) =>
      match pyFloat r with
      | some price => ⟨st.results ++ [(weekend_number, r)], updateCheapest st.cheapest price⟩
      | none => ⟨st.results ++ [(weekend_number, r)], st.cheapest⟩

def weekends : List Nat := [1, 2, 3, 4, 5]

/-- The aggregation loop over completed futures, in completion order. -/
def aggregate (l : List (Nat × Except String (Option String))) : AggState :=
  l.foldl (fun st p => processOutcome st p.1 p.2) ⟨[], none⟩

/-- Embedding of main: every weekend in the completion order is resolved
by running check_flight_price under the environment events evs, then
folded by the results loop.  order is the as_completed order, a
permutation of weekends. -/
def runScheduler (month : Nat) (evs : Nat → StartResult) (order : List Nat) : AggState :=
  aggregate (order.map (fun w => (w, (check_flight_price month w (evs w)).outcome)))

/-- The numeric values the loop actually feeds into the cheapest fold:
parseable outputs of futures that returned a non-None string. -/
def numericValues (l : List (Nat × Except String (Option String))) : List ℚ :=
  l.filterMap (fun p =>
    match p.2 with
    | .ok (some s) => pyFloat s
    | _ => none)

/-! ## linkedin_example.py: safety-check handler and main -/

/-- Model of Python str.strip().lower() as applied to the input() reply:
surrounding whitespace removed, ASCII letters lowercased. -/
def pyStripLower (s : String) : String :=
  ⟨(stripWS s.data).map Char.toLower⟩

/-- Embedding of needs_safety_check_handler (lines 41-57) as a function of
the reply typed at the input() prompt: exit and quit decline, ack
proceeds, anything else declines by the final return False.  The
safety_checks and pending_call arguments are only printed. -/
def needs_safety_check_handler (safety_checks : List String) (pending_call : String)
    (reply : String) : Bool :=
  let ack := pyStripLower reply
  if ack = "exit" ∨ ack = "quit" then false
  else if ack = "ack" then true
  else false

/-- Embedding of linkedin_example.py main (lines 69-149) as a session
trace: desktop.start() is called once; the desktop.stop() call at line 148
is commented out in the source, so no path stops the session.  The
reported value models result[0]: set by complete_handler on COMPLETE,
reset to None by error_handler on ERROR, and left None otherwise. -/
def linkedin_main (act : ActionOutcome) : WorkerRun :=
  match act with
  | .returns status out _ =>
      ⟨1, 0, .ok (if status = AgentStatus.COMPLETE then some out else none)⟩
  | .raisesExc _ => ⟨1, 0, .ok none⟩

/-! ## Action State Machine (spec section 4.2)

Modelled from the spec: the Action State Machine lives inside the
spongecake package (Desktop.action), which is not under src; only its
callers and handlers are.  Following section 4.2: the run consumes engine
events; COMPLETE, ERROR and UNKNOWN are terminal; NEEDS_INPUT resumes on
a handler response and aborts on the abort sentinel; NEEDS_SAFETY_CHECK
executes the pending operation and resumes when the safety handler
returns true, and aborts to a cancelled terminal state without executing
the operation when it returns false.  The returned list collects the
pending operations that were actually executed. -/

inductive EngineEvent
  | needsInputEv (messages : List String)
  | needsSafetyCheckEv (checks : List String) (pendingOp : String)
  | completeEv (output : String)
  | errorEv (msg : String)
  | unknownEv (raw : String)
  deriving DecidableEq, Repr

inductive TermState
  | completeT (output : String)
  | errorT (msg : String)
  | unknownT (raw : String)
  | cancelledT
  deriving DecidableEq, Repr

def drive (safetyH : List String → String → Bool)
    (inputH : List String → Option String) :
    List EngineEvent → TermState × List String
  | [] => (TermState.unknownT "engine produced no terminal status", [])
  | ev :: rest =>
      match ev with
      | .completeEv out => (TermState.completeT out, [])
      | .errorEv m => (TermState.errorT m, [])
      | .unknownEv r => (TermState.unknownT r, [])
      | .needsInputEv msgs =>
          match inputH msgs with
          | none => (TermState.cancelledT, [])
          | some _ => drive safetyH inputH rest
      | .needsSafetyCheckEv checks op =>
          if safetyH checks op then
            let next := drive safetyH inputH rest
            (next.1, op :: next.2)
          else (TermState.cancelledT, [])

/-- The aggregation fold seeded from an arbitrary state, used to reason
about aggregate by induction. -/
def aggStepFold (l : List (Nat × Except String (Option String))) (st : AggState) : AggState :=
  l.foldl (fun st p => processOutcome st p.1 p.2) st

/-- A date that Python datetime.date would accept: month 1..12 and day
within the month, with a positive year. -/
def ValidDate : Date → Prop
  | ⟨y, m, d⟩ => 1 ≤ y ∧ 1 ≤ m ∧ m ≤ 12 ∧ 1 ≤ d ∧ d ≤ daysInMonth y m

/-! ## Calendar lemmas -/

lemma daysInMonth_pos (y m : Nat) : 1 ≤ daysInMonth y m := by
  unfold daysInMonth
  split_ifs <;> omega

lemma validDate_nextDay {d : Date} (h : ValidDate d) : ValidDate (nextDay d) := by
  obtain ⟨y, m, dd⟩ := d
  simp only [ValidDate] at h
  obtain ⟨hy, hm1, hm2, hd1, hd2⟩ := h
  simp only [nextDay]
  split_ifs with h1 h2 <;> simp only [ValidDate] <;>
      refine ⟨by omega, by omega, by omega, by omega, ?_⟩
  · omega
  · exact daysInMonth_pos y (m + 1)
  · exact daysInMonth_pos (y + 1) 1

lemma daysBeforeMonth_succ (y m : Nat) (h : 1 ≤ m) :
    daysBeforeMonth y (m + 1) = daysBeforeMonth y m + daysInMonth y m := by
  have e : daysBeforeMonth y (m + 1)
      = if m = 0 then 0 else daysBeforeMonth y m + daysInMonth y m := rfl
  rw [e, if_neg (by omega)]

set_option maxHeartbeats 2000000 in
lemma daysBeforeYear_succ (y : Nat) (hy : 1 ≤ y) :
    daysBeforeYear (y + 1) = daysBeforeYear y + 365 + (if isLeap y then 1 else 0) := by
  unfold daysBeforeYear
  split_ifs with h
  · have h' : (y % 4 = 0 ∧ y % 100 ≠ 0) ∨ y % 400 = 0 := by simpa [isLeap] using h
    omega
  · have h' : ¬((y % 4 = 0 ∧ y % 100 ≠ 0) ∨ y % 400 = 0) := by simpa [isLeap] using h
    omega

lemma daysBeforeMonth_twelve (y : Nat) :
    daysBeforeMonth y 12 = 334 + (if isLeap y then 1 else 0) := by
  have e : daysBeforeMonth y 12
      = daysInMonth y 1 + daysInMonth y 2 + daysInMonth y 3 + daysInMonth y 4 +
        daysInMonth y 5 + daysInMonth y 6 + daysInMonth y 7 + daysInMonth y 8 +
        daysInMonth y 9 + daysInMonth y 10 + daysInMonth y 11 := by
    show daysBeforeMonth y (11 + 1) = _
    rw [daysBeforeMonth_succ y 11 (by omega)]
    show daysBeforeMonth y (10 + 1) + _ = _
    rw [daysBeforeMonth_succ y 10 (by omega)]
    show daysBeforeMonth y (9 + 1) + _ + _ = _
    rw [daysBeforeMonth_succ y 9 (by omega)]
    show daysBeforeMonth y (8 + 1) + _ + _ + _ = _
    rw [daysBeforeMonth_succ y 8 (by omega)]
    show daysBeforeMonth y (7 + 1) + _ + _ + _ + _ = _
    rw [daysBeforeMonth_succ y 7 (by omega)]
    show daysBeforeMonth y (6 + 1) + _ + _ + _ + _ + _ = _
    rw [daysBeforeMonth_succ y 6 (by omega)]
    show daysBeforeMonth y (5 + 1) + _ + _ + _ + _ + _ + _ = _
    rw [daysBeforeMonth_succ y 5 (by omega)]
    show daysBeforeMonth y (4 + 1) + _ + _ + _ + _ + _ + _ + _ = _
    rw [daysBeforeMonth_succ y 4 (by omega)]
    show daysBeforeMonth y (3 + 1) + _ + _ + _ + _ + _ + _ + _ + _ = _
    rw [daysBeforeMonth_succ y 3 (by omega)]
    show daysBeforeMonth y (2 + 1) + _ + _ + _ + _ + _ + _ + _ + _ + _ = _
    rw [daysBeforeMonth_succ y 2 (by omega)]
    show daysBeforeMonth y (1 + 1) + _ + _ + _ + _ + _ + _ + _ + _ + _ + _ = _
    rw [daysBeforeMonth_succ y 1 (by omega)]
    show 0 + _ + _ + _ + _ + _ + _ + _ + _ + _ + _ + _ = _
    omega
  rw [e]
  have h2 : daysInMonth y 2 = if isLeap y then 29 else 28 := rfl
  have h1 : daysInMonth y 1 = 31 := rfl
  have h3 : daysInMonth y 3 = 31 := rfl
  have h4 : daysInMonth y 4 = 30 := rfl
  have h5 : daysInMonth y 5 = 31 := rfl
  have h6 : daysInMonth y 6 = 30 := rfl
  have h7 : daysInMonth y 7 = 31 := rfl
  have h8 : daysInMonth y 8 = 31 := rfl
  have h9 : daysInMonth y 9 = 30 := rfl
  have h10 : daysInMonth y 10 = 31 := rfl
  have h11 : daysInMonth y 11 = 30 := rfl
  rw [h1, h2, h3, h4, h5, h6, h7, h8, h9, h10, h11]
  split_ifs <;> omega

lemma toOrdinal_nextDay {d : Date} (h : ValidDate d) :
    toOrdinal (nextDay d) = toOrdinal d + 1 := by
  obtain ⟨y, m, dd⟩ := d
  simp only [ValidDate] at h
  obtain ⟨hy, hm1, hm2, hd1, hd2⟩ := h
  simp only [nextDay]
  split_ifs with h1 h2
  · simp only [toOrdinal]
    omega
  · simp only [toOrdinal]
    rw [daysBeforeMonth_succ y m hm1]
    omega
  · have hm : m = 12 := by omega
    subst hm
    have hdim : daysInMonth y 12 = 31 := rfl
    simp only [toOrdinal]
    rw [daysBeforeYear_succ y hy, daysBeforeMonth_twelve y]
    have hb : daysBeforeMonth (y + 1) 1 = 0 := rfl
    omega

lemma validDate_addDays {d : Date} (h : ValidDate d) (k : Nat) :
    ValidDate (addDays d k) := by
  induction k with
  | zero => exact h
  | succ k ih => exact validDate_nextDay ih

lemma toOrdinal_addDays {d : Date} (h : ValidDate d) (k : Nat) :
    toOrdinal (addDays d k) = toOrdinal d + k := by
  induction k with
  | zero => rfl
  | succ k ih =>
      show toOrdinal (nextDay (addDays d k)) = toOrdinal d + (k + 1)
      rw [toOrdinal_nextDay (validDate_addDays h k), ih]
      omega

lemma date_weekday_nth_friday (year month n : Nat)
    (hy : 1 ≤ year) (hm1 : 1 ≤ month) (hm2 : month ≤ 12) :
    date_weekday (nth_friday year month n) = 4 := by
  have hv : ValidDate ⟨year, month, 1⟩ :=
    ⟨hy, hm1, hm2, le_refl 1, daysInMonth_pos year month⟩
  unfold nth_friday date_weekday offset_to_friday date_weekday
  rw [toOrdinal_addDays hv]
  have hg : 1 ≤ toOrdinal ⟨year, month, 1⟩ := by
    simp only [toOrdinal]
    omega
  generalize toOrdinal (⟨year, month, 1⟩ : Date) = g at hg ⊢
  omega

lemma nextDay_two_same_month (d : Date)
    (h : (nextDay (nextDay d)).month = d.month) :
    (nextDay (nextDay d)).day = d.day + 2 := by
  obtain ⟨y, m, dd⟩ := d
  by_cases h1 : dd < daysInMonth y m
  · have e1 : nextDay ⟨y, m, dd⟩ = ⟨y, m, dd + 1⟩ := by simp [nextDay, h1]
    rw [e1] at h ⊢
    by_cases h2 : dd + 1 < daysInMonth y m
    · have e2 : nextDay ⟨y, m, dd + 1⟩ = ⟨y, m, dd + 2⟩ := by simp [nextDay, h2]
      rw [e2]
    · by_cases h3 : m < 12
      · have e2 : nextDay ⟨y, m, dd + 1⟩ = ⟨y, m + 1, 1⟩ := by simp [nextDay, h2, h3]
        rw [e2] at h
        exact absurd (show m + 1 = m from h) (by omega)
      · have e2 : nextDay ⟨y, m, dd + 1⟩ = ⟨y + 1, 1, 1⟩ := by simp [nextDay, h2, h3]
        rw [e2] at h
        exact absurd (show 1 = m from h) (by omega)
  · by_cases h3 : m < 12
    · have e1 : nextDay ⟨y, m, dd⟩ = ⟨y, m + 1, 1⟩ := by simp [nextDay, h1, h3]
      rw [e1] at h
      by_cases h4 : 1 < daysInMonth y (m + 1)
      · have e2 : nextDay ⟨y, m + 1, 1⟩ = ⟨y, m + 1, 2⟩ := by simp [nextDay, h4]
        rw [e2] at h
        exact absurd (show m + 1 = m from h) (by omega)
      · by_cases h5 : m + 1 < 12
        · have e2 : nextDay ⟨y, m + 1, 1⟩ = ⟨y, m + 2, 1⟩ := by simp [nextDay, h4, h5]
          rw [e2] at h
          exact absurd (show m + 2 = m from h) (by omega)
        · have e2 : nextDay ⟨y, m + 1, 1⟩ = ⟨y + 1, 1, 1⟩ := by simp [nextDay, h4, h5]
          rw [e2] at h
          exact absurd (show 1 = m from h) (by omega)
    · have e1 : nextDay ⟨y, m, dd⟩ = ⟨y + 1, 1, 1⟩ := by simp [nextDay, h1, h3]
      rw [e1] at h
      by_cases h4 : 1 < daysInMonth (y + 1) 1
      · have e2 : nextDay ⟨y + 1, 1, 1⟩ = ⟨y + 1, 1, 2⟩ := by simp [nextDay, h4]
        rw [e2] at h
        exact absurd (show 1 = m from h) (by omega)
      · exfalso
        have h31 : daysInMonth (y + 1) 1 = 31 := rfl
        omega

/-! ## Theorems -/

/-- C1 counterexample: in linkedin_example.py main, the session is started
once but stopped zero times on a normal completion path: the stop call at
line 148 is commented out, so the unit of work reports its outcome with
the session still running.  This refutes the claim that every unit of
work that starts a Session stops it exactly once before reporting. -/
theorem linkedin_session_not_stopped :
    (linkedin_main (ActionOutcome.returns AgentStatus.COMPLETE "done" none)).startCount = 1 ∧
    (linkedin_main (ActionOutcome.returns AgentStatus.COMPLETE "done" none)).stopCount = 0 := by
  constructor <;> rfl

/-- C1 (amended): in check_flight_price every unit of work that starts a
Session stops it exactly once before its outcome is reported, on every
exit path (normal completion, early return for invalid weekend dates,
engine error, unrecognized status, and a fault raised during the run);
when the start itself raises, nothing was started and nothing is stopped.
In linkedin_example.py main, by contrast, the session is deliberately
left running: it is started once and never stopped. -/
theorem session_stop_discipline :
    (∀ month w act,
       (check_flight_price month w (StartResult.ok act)).startCount = 1 ∧
       (check_flight_price month w (StartResult.ok act)).stopCount = 1) ∧
    (∀ month w msg,
       (check_flight_price month w (StartResult.raisesExc msg)).startCount = 0 ∧
       (check_flight_price month w (StartResult.raisesExc msg)).stopCount = 0) ∧
    (∀ act, (linkedin_main act).startCount = 1 ∧ (linkedin_main act).stopCount = 0) := by
  refine ⟨fun month w act => ?_, fun month w msg => by simp [check_flight_price], fun act => ?_⟩
  · cases h : get_nth_weekend_dates 2025 month w <;> simp [check_flight_price, h]
  · cases act <;> simp [linkedin_main]

/-- C3: for any two distinct task indices in the property-test range
1..50 (which covers the five concurrently scheduled weekends), the four
port identifiers assigned by the allocator to one task are disjoint from
the four assigned to the other. -/
theorem ports_pairwise_disjoint (i j : Nat) (h1 : 1 ≤ i) (h2 : i ≤ 50)
    (h3 : 1 ≤ j) (h4 : j ≤ 50) (hij : i ≠ j) :
    List.Disjoint (portList (flightDesktop i)) (portList (flightDesktop j)) := by
  intro p hp hq
  simp only [portList, flightDesktop, List.mem_cons, List.not_mem_nil, or_false] at hp hq
  omega

/-- C3 witness: the assignments of tasks 1 and 2 share no identifier. -/
theorem ports_pairwise_disjoint_witness :
    (1 : Nat) ≠ 2 ∧
    List.Disjoint (portList (flightDesktop 1)) (portList (flightDesktop 2)) :=
  ⟨by decide, ports_pairwise_disjoint 1 2 (by decide) (by decide) (by decide) (by decide)
    (by decide)⟩

/-- C9: for every weekend number w >= 1 the allocator assigns, for each
resource kind, its base value (5900, 8000, 3838, 2828) plus the 0-based
task index w - 1, the same offset for all four kinds. -/
theorem allocator_base_plus_index (w : Nat) (h : 1 ≤ w) :
    (flightDesktop w).vnc_port = 5900 + (w - 1) ∧
    (flightDesktop w).api_port = 8000 + (w - 1) ∧
    (flightDesktop w).marionette_port = 3838 + (w - 1) ∧
    (flightDesktop w).socat_port = 2828 + (w - 1) := by
  refine ⟨?_, ?_, ?_, ?_⟩ <;> simp only [flightDesktop] <;> omega

/-- C9 witness: task 3 gets each base plus offset 2. -/
theorem allocator_base_plus_index_witness :
    (1 : Nat) ≤ 3 ∧
    ((flightDesktop 3).vnc_port = 5900 + (3 - 1) ∧
     (flightDesktop 3).api_port = 8000 + (3 - 1) ∧
     (flightDesktop 3).marionette_port = 3838 + (3 - 1) ∧
     (flightDesktop 3).socat_port = 2828 + (3 - 1)) :=
  ⟨by decide, allocator_base_plus_index 3 (by decide)⟩

/-- C7: a run that reaches NEEDS_SAFETY_CHECK and whose handler declines
(here the handler of linkedin_example.py, driven by a user reply that is
not ack) terminates in the cancelled terminal state with no operation
executed, and the cancelled state differs from every COMPLETE state.
The state machine itself is modelled from the spec (section 4.2), since
Desktop.action lives in the spongecake package outside src. -/
theorem safety_decline_aborts (reply : String) (checks : List String) (op : String)
    (rest : List EngineEvent) (inputH : List String → Option String)
    (h : needs_safety_check_handler checks op reply = false) :
    drive (fun cs pc => needs_safety_check_handler cs pc reply) inputH
        (EngineEvent.needsSafetyCheckEv checks op :: rest)
      = (TermState.cancelledT, []) ∧
    (∀ out, TermState.cancelledT ≠ TermState.completeT out) := by
  exact ⟨by simp [drive, h], fun out => by simp⟩

/-- C7 witness: the reply no declines, the run cancels without executing
the pending operation. -/
theorem safety_decline_aborts_witness :
    needs_safety_check_handler ["check"] "op" "no" = false ∧
    (drive (fun cs pc => needs_safety_check_handler cs pc "no") (fun _ => none)
        (EngineEvent.needsSafetyCheckEv ["check"] "op" :: [])
      = (TermState.cancelledT, []) ∧
     (∀ out, TermState.cancelledT ≠ TermState.completeT out)) :=
  ⟨by decide, safety_decline_aborts "no" ["check"] "op" [] (fun _ => none) (by decide)⟩

/-- C8: whenever the engine returns a terminal status that is neither
COMPLETE nor ERROR, the worker reports the UNKNOWN-prefixed outcome
string that surfaces the raw status, and that string never parses as a
number, so it is excluded from the numeric success reduction and
classified as a failure. -/
theorem unknown_status_failure (month w : Nat) (status : AgentStatus)
    (out : String) (err : Option String)
    (h1 : status ≠ AgentStatus.COMPLETE) (h2 : status ≠ AgentStatus.ERROR)
    (h3 : get_nth_weekend_dates 2025 month w ≠ none) :
    (check_flight_price month w (StartResult.ok (ActionOutcome.returns status out err))).outcome
      = Except.ok (some ("UNKNOWN: Status " ++ statusStr status)) ∧
    pyFloat ("UNKNOWN: Status " ++ statusStr status) = none := by
  constructor
  · cases hv : get_nth_weekend_dates 2025 month w with
    | none => exact absurd hv h3
    | some v => simp [check_flight_price, hv, actionBranch, h1, h2]
  · cases status with
    | COMPLETE => exact absurd rfl h1
    | ERROR => exact absurd rfl h2
    | NEEDS_INPUT => decide
    | NEEDS_SAFETY_CHECK => decide

/-- C8 witness: an unexpected NEEDS_INPUT terminal status for weekend 1 of
February 2025 becomes an UNKNOWN failure outcome. -/
theorem unknown_status_failure_witness :
    get_nth_weekend_dates 2025 2 1 ≠ none ∧
    ((check_flight_price 2 1 (StartResult.ok
          (ActionOutcome.returns AgentStatus.NEEDS_INPUT "" none))).outcome
       = Except.ok (some ("UNKNOWN: Status " ++ statusStr AgentStatus.NEEDS_INPUT)) ∧
     pyFloat ("UNKNOWN: Status " ++ statusStr AgentStatus.NEEDS_INPUT) = none) :=
  ⟨by decide, unknown_status_failure 2 1 AgentStatus.NEEDS_INPUT "" none
    (by decide) (by decide) (by decide)⟩

set_option maxRecDepth 2000 in
/-- C2 counterexample: submitting the five weekends of February 2025 with
every engine run completing, the scheduler finishes with outcomes only
for weekends 1, 2 and 3: weekends 4 and 5 have no Friday-Sunday pair
inside February, their workers return None, and line 129 of the source
stores nothing for them, so their outcomes silently vanish from the
mapping even though weekend 4 is among the submitted tasks. -/
theorem missing_outcome_for_none_result :
    ((runScheduler 2
        (fun _ => StartResult.ok (ActionOutcome.returns AgentStatus.COMPLETE "100" none))
        [1, 2, 3, 4, 5]).results).map Prod.fst = [1, 2, 3] ∧
    (4 : Nat) ∈ weekends := by
  constructor <;> decide

/-- C5 counterexample: with the single outcome ERROR: x nothing parses,
and the final cheapest value is none, the model of the float inf sentinel
the code started from; main then prints that sentinel as the cheapest
value.  There is no distinct no-valid-result report, refuting the claim. -/
theorem no_numeric_reports_inf_sentinel :
    (aggregate [(1, Except.ok (some "ERROR: x"))]).cheapest = none ∧
    (aggregate [(1, Except.ok (some "ERROR: x"))]).results = [(1, "ERROR: x")] := by
  constructor <;> decide

lemma addDays_add (d : Date) (a b : Nat) : addDays d (a + b) = addDays (addDays d a) b := by
  induction b with
  | zero => rfl
  | succ b ih => exact congrArg nextDay ih

set_option maxRecDepth 4000 in
/-- C10 counterexample: get_nth_weekend_dates compares only month
numbers, so for December 2024 and n = 53 the computed candidate Friday is
December 5 of the NEXT year (2025); December 2024 has only four Fridays,
yet the function returns some (5, 7) instead of none. -/
theorem weekend_dates_year_wrap :
    get_nth_weekend_dates 2024 12 53 = some (5, 7) ∧
    (nth_friday 2024 12 53).year = 2025 := by
  have hf : nth_friday 2024 12 53 = ⟨2025, 12, 5⟩ := by
    have h369 : offset_to_friday 2024 12 + 7 * (53 - 1) = 123 + (123 + 123) := by
      have h0 : offset_to_friday 2024 12 = 5 := by decide
      rw [h0]
    unfold nth_friday
    rw [h369, addDays_add, addDays_add]
    have s1 : addDays (⟨2024, 12, 1⟩ : Date) 123 = ⟨2025, 4, 3⟩ := by decide
    have s2 : addDays (⟨2025, 4, 3⟩ : Date) 123 = ⟨2025, 8, 4⟩ := by decide
    rw [s1, s2]
    decide
  constructor
  · unfold get_nth_weekend_dates nth_sunday
    rw [hf]
    decide
  · rw [hf]

/-! ## Aggregation lemmas -/

lemma updateCheapest_spec (c : Option ℚ) (x : ℚ) :
    ∃ m, updateCheapest c x = some m ∧ m ≤ x ∧ (m = x ∨ c = some m) ∧
      (∀ qc, c = some qc → m ≤ qc) := by
  rcases c with _ | q
  · exact ⟨x, rfl, le_refl x, Or.inl rfl, fun qc h => by cases h⟩
  · by_cases hx : x < q
    · refine ⟨x, by simp [updateCheapest, hx], le_refl x, Or.inl rfl, ?_⟩
      intro qc h
      injection h with h
      exact h ▸ le_of_lt hx
    · refine ⟨q, by simp [updateCheapest, hx], le_of_not_lt hx, Or.inr rfl, ?_⟩
      intro qc h
      injection h with h
      exact h ▸ le_refl q

lemma foldl_updateCheapest_spec (xs : List ℚ) :
    ∀ (c : Option ℚ) (q : ℚ), xs.foldl updateCheapest c = some q →
      (∀ r ∈ xs, q ≤ r) ∧ (q ∈ xs ∨ c = some q) ∧ (∀ qc, c = some qc → q ≤ qc) := by
  induction xs with
  | nil =>
      intro c q h
      simp only [List.foldl_nil] at h
      refine ⟨by simp, Or.inr h, fun qc hc => ?_⟩
      rw [h] at hc
      injection hc with hc
      exact hc ▸ le_refl q
  | cons x xs ih =>
      intro c q h
      obtain ⟨hxr, hmem, hseed⟩ := ih (updateCheapest c x) q h
      obtain ⟨m, hm, hmx, hmor, hmseed⟩ := updateCheapest_spec c x
      have hqm : q ≤ m := hseed m hm
      refine ⟨?_, ?_, ?_⟩
      · intro r hr
        rcases List.mem_cons.mp hr with rfl | hr'
        · exact le_trans hqm hmx
        · exact hxr r hr'
      · rcases hmem with hq | hq
        · exact Or.inl (List.mem_cons_of_mem x hq)
        · rw [hm] at hq
          injection hq with hq
          rcases hmor with hmx' | hc
          · exact Or.inl (by rw [← hq, hmx']; exact List.mem_cons_self x xs)
          · exact Or.inr (by rw [← hq]; exact hc)
      · intro qc hc
        exact le_trans hqm (hmseed qc hc)

lemma aggStepFold_cheapest (l : List (Nat × Except String (Option String))) (st : AggState) :
    (aggStepFold l st).cheapest = (numericValues l).foldl updateCheapest st.cheapest := by
  induction l generalizing st with
  | nil => rfl
  | cons p l ih =>
      obtain ⟨w, fr⟩ := p
      show (aggStepFold l (processOutcome st w fr)).cheapest = _
      rw [ih]
      rcases fr with msg | v
      · simp [numericValues, List.filterMap_cons, processOutcome]
      · rcases v with _ | s
        · simp [numericValues, List.filterMap_cons, processOutcome]
        · rcases hp : pyFloat s with _ | price <;>
            simp [numericValues, List.filterMap_cons, processOutcome, hp]

lemma mem_processOutcome_results (st : AggState) (w : Nat)
    (fr : Except String (Option String)) (p : Nat × String)
    (hp : p ∈ st.results) : p ∈ (processOutcome st w fr).results := by
  rcases fr with msg | v
  · simp [processOutcome, hp]
  · rcases v with _ | s
    · exact hp
    · rcases hq : pyFloat s with _ | price <;> simp [processOutcome, hq, hp]

lemma mem_aggStepFold_results (l : List (Nat × Except String (Option String))) :
    ∀ (st : AggState) (p : Nat × String), p ∈ st.results →
      p ∈ (aggStepFold l st).results := by
  induction l with
  | nil => intro st p hp; exact hp
  | cons q l ih =>
      intro st p hp
      exact ih _ p (mem_processOutcome_results st q.1 q.2 p hp)

lemma retention_aux (l : List (Nat × Except String (Option String))) :
    ∀ (st : AggState) (w : Nat) (s : String),
      (w, Except.ok (some s)) ∈ l → (w, s) ∈ (aggStepFold l st).results := by
  induction l with
  | nil => intro st w s h; cases h
  | cons q l ih =>
      intro st w s h
      rcases List.mem_cons.mp h with heq | hmem
      · subst heq
        show (w, s) ∈ (aggStepFold l (processOutcome st w (Except.ok (some s)))).results
        apply mem_aggStepFold_results
        rcases hq : pyFloat s with _ | price <;> simp [processOutcome, hq]
      · exact ih _ w s hmem

lemma presence_aux (l : List (Nat × Except String (Option String))) :
    ∀ (st : AggState) (w : Nat) (fr : Except String (Option String)),
      (w, fr) ∈ l → fr ≠ Except.ok none →
      ∃ s, (w, s) ∈ (aggStepFold l st).results := by
  induction l with
  | nil => intro st w fr h _; cases h
  | cons q l ih =>
      intro st w fr h hne
      rcases List.mem_cons.mp h with heq | hmem
      · subst heq
        rcases fr with msg | v
        · refine ⟨"ERROR: " ++ msg, ?_⟩
          show (w, _) ∈ (aggStepFold l (processOutcome st w (Except.error msg))).results
          apply mem_aggStepFold_results
          simp [processOutcome]
        · rcases v with _ | s
          · exact absurd rfl hne
          · refine ⟨s, ?_⟩
            show (w, s) ∈ (aggStepFold l (processOutcome st w (Except.ok (some s)))).results
            apply mem_aggStepFold_results
            rcases hq : pyFloat s with _ | price <;> simp [processOutcome, hq]
      · exact ih _ w fr hmem hne

/-! ## Strings with a non-numeric head never parse -/

lemma dropWhile_append_singleton (p : Char → Bool) (l : List Char) (a : Char)
    (h : p a = false) :
    (l ++ [a]).dropWhile p = l.dropWhile p ++ [a] := by
  induction l with
  | nil => simp [List.dropWhile_cons, h]
  | cons x l ih =>
      simp only [List.cons_append, List.dropWhile_cons]
      split <;> simp [ih]

lemma stripWS_nonws_head (c : Char) (hc : c.isWhitespace = false) (cs : List Char) :
    stripWS (c :: cs) = c :: (cs.reverse.dropWhile Char.isWhitespace).reverse := by
  unfold stripWS
  rw [List.dropWhile_cons, if_neg (by simp [hc])]
  rw [List.reverse_cons, dropWhile_append_singleton _ _ _ hc]
  simp

lemma pyFloatChars_E_head (cs : List Char) : pyFloatChars ('E' :: cs) = none := by
  have h := stripWS_nonws_head 'E' (by decide) cs
  simp only [pyFloatChars, h]
  simp +decide [pyFloatNum, takeDigits]

lemma pyFloat_EXCEPTION_none (msg : String) : pyFloat ("EXCEPTION: " ++ msg) = none := by
  rw [pyFloat, show ("EXCEPTION: " ++ msg).data = 'E' :: ("XCEPTION: " ++ msg).data from rfl]
  exact pyFloatChars_E_head _

/-- C2 (amended): once the scheduler reports completion, the outcome
mapping has an entry for every submitted task whose worker either
returned a result string or raised; only tasks whose worker returned
None (a weekend with no Friday-Sunday pair inside the month) are
silently omitted from the mapping. -/
theorem outcome_present_unless_none (month : Nat) (evs : Nat → StartResult)
    (order : List Nat) (w : Nat) (hw : w ∈ order)
    (hnn : (check_flight_price month w (evs w)).outcome ≠ Except.ok none) :
    ∃ s, (w, s) ∈ (runScheduler month evs order).results := by
  show ∃ s, (w, s) ∈ (aggStepFold
    (order.map (fun w => (w, (check_flight_price month w (evs w)).outcome)))
    ⟨[], none⟩).results
  exact presence_aux _ _ w _
    (List.mem_map_of_mem (fun w => (w, (check_flight_price month w (evs w)).outcome)) hw) hnn

/-- C2 witness: weekend 1 of February 2025 with a completed run has an
entry in the final mapping. -/
theorem outcome_present_unless_none_witness :
    (check_flight_price 2 1 (StartResult.ok
        (ActionOutcome.returns AgentStatus.COMPLETE "100" none))).outcome ≠ Except.ok none ∧
    ∃ s, (1, s) ∈ (runScheduler 2
        (fun _ => StartResult.ok (ActionOutcome.returns AgentStatus.COMPLETE "100" none))
        [1, 2, 3, 4, 5]).results :=
  ⟨by decide, outcome_present_unless_none 2
    (fun _ => StartResult.ok (ActionOutcome.returns AgentStatus.COMPLETE "100" none))
    [1, 2, 3, 4, 5] 1 (by decide) (by decide)⟩

/-- C4: the running best value is the minimum over exactly the success
outputs that parse as numbers (whenever a best value exists it is one of
the parsed values and a lower bound for all of them); every non-None
worker result string is retained in the outcome mapping whether or not
it parses; and on the concrete outcomes 231, ERROR: timeout, 189 the
best value is 189 while all three entries are preserved. -/
theorem aggregator_min_and_retention :
    (∀ l q, (aggregate l).cheapest = some q →
        q ∈ numericValues l ∧ ∀ r ∈ numericValues l, q ≤ r) ∧
    (∀ (l : List (Nat × Except String (Option String))) (w : Nat) (s : String),
        (w, Except.ok (some s)) ∈ l → (w, s) ∈ (aggregate l).results) ∧
    ((aggregate [(1, Except.ok (some "231")), (2, Except.ok (some "ERROR: timeout")),
        (3, Except.ok (some "189"))]).results
      = [(1, "231"), (2, "ERROR: timeout"), (3, "189")] ∧
     (aggregate [(1, Except.ok (some "231")), (2, Except.ok (some "ERROR: timeout")),
        (3, Except.ok (some "189"))]).cheapest = some (189 : ℚ)) := by
  refine ⟨?_, ?_, by decide, by decide⟩
  · intro l q h
    rw [show aggregate l = aggStepFold l ⟨[], none⟩ from rfl, aggStepFold_cheapest] at h
    obtain ⟨hub, hmem, _⟩ := foldl_updateCheapest_spec (numericValues l) none q h
    rcases hmem with hq | hq
    · exact ⟨hq, hub⟩
    · cases hq
  · intro l w s h
    exact retention_aux l ⟨[], none⟩ w s h

/-- C4 witness: on the concrete outcomes the best value 189 is among the
parsed values. -/
theorem aggregator_min_and_retention_witness :
    (aggregate [(1, Except.ok (some "231")), (2, Except.ok (some "ERROR: timeout")),
        (3, Except.ok (some "189"))]).cheapest = some (189 : ℚ) ∧
    (189 : ℚ) ∈ numericValues [(1, Except.ok (some "231")),
        (2, Except.ok (some "ERROR: timeout")), (3, Except.ok (some "189"))] :=
  ⟨by decide, (aggregator_min_and_retention.1 _ 189 (by decide)).1⟩

/-- C5 (amended): when no outcome parses as a number, the final cheapest
value is none, the model of the float inf sentinel the loop started
from; main then prints this sentinel, distinguishable from zero only
because inf differs from 0, not through a distinct no-valid-result
report. -/
theorem empty_numeric_keeps_inf (l : List (Nat × Except String (Option String)))
    (h : numericValues l = []) : (aggregate l).cheapest = none := by
  show (aggStepFold l ⟨[], none⟩).cheapest = none
  rw [aggStepFold_cheapest, h]
  rfl

/-- C5 witness: a single ERROR outcome leaves the sentinel in place. -/
theorem empty_numeric_keeps_inf_witness :
    numericValues [(1, Except.ok (some "ERROR: x"))] = [] ∧
    (aggregate [(1, Except.ok (some "ERROR: x"))]).cheapest = none :=
  ⟨by decide, empty_numeric_keeps_inf [(1, Except.ok (some "ERROR: x"))] (by decide)⟩

/-- C6: a fault raised inside one unit of work is converted into an
outcome entry instead of escaping the scheduler: a fault from
desktop.start escapes the worker, is caught at the loop boundary and
stored as an ERROR entry, while a fault during the action run is caught
inside the worker and stored as an EXCEPTION entry; in both cases the
entries of sibling tasks already in the state are preserved unchanged
(the result list is only appended to) and the fault string never parses
as a number, so it is classified as a failure. -/
theorem worker_fault_becomes_outcome (month w : Nat) (msg : String) (st : AggState) :
    (processOutcome st w (check_flight_price month w (StartResult.raisesExc msg)).outcome
       = ⟨st.results ++ [(w, "ERROR: " ++ msg)], st.cheapest⟩) ∧
    (get_nth_weekend_dates 2025 month w ≠ none →
       processOutcome st w
           (check_flight_price month w (StartResult.ok (ActionOutcome.raisesExc msg))).outcome
         = ⟨st.results ++ [(w, "EXCEPTION: " ++ msg)], st.cheapest⟩) := by
  constructor
  · rfl
  · intro h3
    cases hv : get_nth_weekend_dates 2025 month w with
    | none => exact absurd hv h3
    | some v =>
        simp [check_flight_price, hv, actionBranch, processOutcome, pyFloat_EXCEPTION_none]

/-- C6 witness: an action fault for weekend 1 of February 2025 becomes an
EXCEPTION entry with the cheapest value untouched. -/
theorem worker_fault_becomes_outcome_witness :
    get_nth_weekend_dates 2025 2 1 ≠ none ∧
    processOutcome ⟨[], none⟩ 1
        (check_flight_price 2 1 (StartResult.ok (ActionOutcome.raisesExc "boom"))).outcome
      = ⟨[] ++ [(1, "EXCEPTION: boom")], none⟩ :=
  ⟨by decide, (worker_fault_becomes_outcome 2 1 "boom" ⟨[], none⟩).2 (by decide)⟩

/-- C10 (amended): for month in 1..12 and n >= 1, get_nth_weekend_dates
returns none exactly when the computed candidate n-th Friday (the first
Friday of the month plus 7(n-1) days) or the Sunday two days after it
carries a month NUMBER different from the requested month - the code
compares only month numbers, so a candidate falling in the same-numbered
month of a later year is accepted; otherwise it returns (f, f+2) where f
is the day-of-month of the candidate Friday (a true Friday by weekday
arithmetic), and the Friday and Sunday lie in the same actual month. -/
theorem get_nth_weekend_dates_spec (year month n : Nat)
    (hy : 1 ≤ year) (hm1 : 1 ≤ month) (hm2 : month ≤ 12) (hn : 1 ≤ n) :
    (get_nth_weekend_dates year month n = none ↔
      ((nth_friday year month n).month ≠ month ∨
       (nth_sunday year month n).month ≠ month)) ∧
    (∀ f s, get_nth_weekend_dates year month n = some (f, s) →
      f = (nth_friday year month n).day ∧ s = f + 2 ∧
      (nth_friday year month n).month = month ∧
      (nth_sunday year month n).month = month ∧
      date_weekday (nth_friday year month n) = 4) := by
  constructor
  · unfold get_nth_weekend_dates
    split_ifs with h
    · exact iff_of_true rfl h
    · exact iff_of_false (by simp) h
  · intro f s hfs
    unfold get_nth_weekend_dates at hfs
    split_ifs at hfs with h
    push_neg at h
    obtain ⟨hfm, hsm⟩ := h
    have hsun : nth_sunday year month n
        = nextDay (nextDay (nth_friday year month n)) := rfl
    have hmm : (nextDay (nextDay (nth_friday year month n))).month
        = (nth_friday year month n).month := by
      rw [← hsun, hsm, hfm]
    have hday := nextDay_two_same_month _ hmm
    rw [← hsun] at hday
    obtain ⟨hf, hs⟩ : (nth_friday year month n).day = f ∧
        (nth_sunday year month n).day = s := by simpa using hfs
    exact ⟨hf.symm, by omega, hfm, hsm,
      date_weekday_nth_friday year month n hy hm1 hm2⟩

/-- C10 witness: the first weekend of February 2025 is Friday the 7th and
Sunday the 9th, two days apart, both in February, and the computed
Friday has weekday 4. -/
theorem get_nth_weekend_dates_spec_witness :
    get_nth_weekend_dates 2025 2 1 = some (7, 9) ∧
    (7 = (nth_friday 2025 2 1).day ∧ 9 = 7 + 2 ∧
     (nth_friday 2025 2 1).month = 2 ∧ (nth_sunday 2025 2 1).month = 2 ∧
     date_weekday (nth_friday 2025 2 1) = 4) :=
  ⟨by decide, (get_nth_weekend_dates_spec 2025 2 1 (by decide) (by decide) (by decide)
      (by decide)).2 7 9 (by decide)⟩

end Spongecake

